import Mathlib

/-!
Shallow embedding of `src/paystell-frontend/src/middleware/rateLimitMiddleware.ts`:
a fixed-window in-memory rate limiter keyed by client IP.

Times and counters are JavaScript numbers used only at integer values, so they
are modelled as `Int`.  The module-level `Map<string, RateLimitData>` is
modelled as a function `String → Option RateLimitData`, and each call to the
middleware is modelled as a pure state transformer returning the optional 429
response (`none` means the request is admitted and the middleware returns
`undefined`) together with the updated map.
-/

namespace RateLimit

/-- `interface RateLimitData { count: number; resetTime: number }`. -/
structure RateLimitData where
  count : Int
  resetTime : Int
deriving DecidableEq, Repr

/-- `interface RateLimitErrorResponse { success: false; message: string }`.
`success` is kept as a `Bool` field so the body literal `success: false`
in the source is represented explicitly. -/
structure RateLimitErrorResponse where
  success : Bool
  message : String
deriving DecidableEq, Repr

/-- `type RateLimitHeaders`: the four rate-limit headers, all strings. -/
structure RateLimitHeaders where
  limit : String
  remaining : String
  reset : String
  retryAfter : String
deriving DecidableEq, Repr

/-- Model of the `NextResponse.json(body, { status, headers })` value built on
rejection: its status code, headers and JSON body. -/
structure RateLimitResponse where
  status : Nat
  headers : RateLimitHeaders
  body : RateLimitErrorResponse
deriving DecidableEq, Repr

/-- The in-memory store `Map<string, RateLimitData>`. -/
abbrev Registry := String → Option RateLimitData

/-- The store starts out empty. -/
def Registry.empty : Registry := fun _ => none

/-- `ipRequestMap.set(ip, data)`. -/
def Registry.set (m : Registry) (k : String) (v : RateLimitData) : Registry :=
  fun k2 => if k2 = k then some v else m k2

/-- JavaScript `Math.ceil(a / b)` at integer arguments, for `b > 0`:
the ceiling of the rational `a / b`, computed as `-((-a) / b)` with
Lean's Euclidean (floor-for-positive-divisor) integer division. -/
def ceilDiv (a b : Int) : Int := -(-a / b)

/-- `request.ip || 'unknown'`: `request.ip` is `string | undefined`, and both
`undefined` and the empty string are falsy in JavaScript, so either falls back
to the sentinel `"unknown"`. -/
def clientKey (requestIp : Option String) : String :=
  match requestIp with
  | none => "unknown"
  | some s => if s = "" then "unknown" else s

/-- The 429 response the source constructs when the count exceeds the maximum:
status 429, the four rate-limit headers, and the JSON error body. -/
def rejectionResponse (maxRequests resetTime now : Int) : RateLimitResponse :=
  let secondsToReset := ceilDiv (resetTime - now) 1000
  { status := 429
    headers :=
      { limit := toString maxRequests
        remaining := "0"
        reset := toString (ceilDiv resetTime 1000)
        retryAfter := toString secondsToReset }
    body :=
      { success := false
        message := "Too many requests. Please try again in " ++
          toString secondsToReset ++ " seconds." } }

/-- One call to `rateLimitMiddleware(request, maxRequests, windowMs)` at time
`now = Date.now()`, acting on the store `ipRequestMap`.  Mirrors the source
line by line: derive the key, look up (or synthesize) the entry, reset it if
the window has elapsed, increment, write back, and decide. -/
def rateLimitMiddleware (requestIp : Option String) (maxRequests windowMs now : Int)
    (ipRequestMap : Registry) : Option RateLimitResponse × Registry :=
  let ip := clientKey requestIp
  let ipData0 := (ipRequestMap ip).getD { count := 0, resetTime := now + windowMs }
  let ipData1 :=
    if now > ipData0.resetTime then
      { count := 0, resetTime := now + windowMs : RateLimitData }
    else ipData0
  let ipData : RateLimitData := { ipData1 with count := ipData1.count + 1 }
  let m := ipRequestMap.set ip ipData
  if ipData.count > maxRequests then
    (some (rejectionResponse maxRequests ipData.resetTime now), m)
  else
    (none, m)

/-- The entry as it stands after the lookup/synthesis and optional window
reset, before the increment (the value of `ipData` at line 51 of the source). -/
def baseData (windowMs now : Int) (prior : Option RateLimitData) : RateLimitData :=
  let d0 := prior.getD { count := 0, resetTime := now + windowMs }
  if now > d0.resetTime then { count := 0, resetTime := now + windowMs } else d0

/-- A sequence of calls for the same client at the given list of times,
threading the store through; returns the list of per-call decisions and the
final store. -/
def runCalls (requestIp : Option String) (maxRequests windowMs : Int)
    (times : List Int) (m : Registry) : List (Option RateLimitResponse) × Registry :=
  match times with
  | [] => ([], m)
  | t :: ts =>
    let r := rateLimitMiddleware requestIp maxRequests windowMs t m
    let rest := runCalls requestIp maxRequests windowMs ts r.2
    (r.1 :: rest.1, rest.2)

/-! ### Basic lemmas about the embedding -/

theorem Registry.set_same (m : Registry) (k : String) (v : RateLimitData) :
    m.set k v k = some v := by
  simp [Registry.set]

theorem Registry.set_other (m : Registry) (k k2 : String) (v : RateLimitData)
    (h : k2 ≠ k) : m.set k v k2 = m k2 := by
  simp [Registry.set, h]

theorem ceilDiv_nonneg {a b : Int} (ha : 0 ≤ a) (hb : 0 < b) : 0 ≤ ceilDiv a b := by
  unfold ceilDiv
  have h1 : -a / b ≤ 0 / b := Int.ediv_le_ediv hb (by omega)
  simp at h1
  omega

/-- The middleware, rewritten through `baseData`: increment the base entry,
write it back, reject exactly when the incremented count exceeds the maximum. -/
theorem rateLimitMiddleware_eq (requestIp : Option String) (mx wms now : Int)
    (m : Registry) :
    rateLimitMiddleware requestIp mx wms now m =
      (if (baseData wms now (m (clientKey requestIp))).count + 1 > mx then
        (some (rejectionResponse mx
            (baseData wms now (m (clientKey requestIp))).resetTime now),
          m.set (clientKey requestIp)
            { count := (baseData wms now (m (clientKey requestIp))).count + 1
              resetTime := (baseData wms now (m (clientKey requestIp))).resetTime })
      else
        (none,
          m.set (clientKey requestIp)
            { count := (baseData wms now (m (clientKey requestIp))).count + 1
              resetTime := (baseData wms now (m (clientKey requestIp))).resetTime })) :=
  rfl

/-- The updated store: the incremented base entry is written back at the
client's key, whether the call was admitted or rejected. -/
theorem rateLimitMiddleware_snd (requestIp : Option String) (mx wms now : Int)
    (m : Registry) :
    (rateLimitMiddleware requestIp mx wms now m).2 =
      m.set (clientKey requestIp)
        { count := (baseData wms now (m (clientKey requestIp))).count + 1
          resetTime := (baseData wms now (m (clientKey requestIp))).resetTime } := by
  rw [rateLimitMiddleware_eq]
  split <;> rfl

/-- The decision: reject exactly when the incremented count exceeds the
maximum. -/
theorem rateLimitMiddleware_fst (requestIp : Option String) (mx wms now : Int)
    (m : Registry) :
    (rateLimitMiddleware requestIp mx wms now m).1 =
      (if (baseData wms now (m (clientKey requestIp))).count + 1 > mx then
        some (rejectionResponse mx
          (baseData wms now (m (clientKey requestIp))).resetTime now)
      else none) := by
  rw [rateLimitMiddleware_eq]
  split <;> rfl

theorem baseData_none (wms now : Int) :
    baseData wms now none = { count := 0, resetTime := now + wms } := by
  simp [baseData]

theorem baseData_some_le (wms now : Int) (d0 : RateLimitData)
    (h : now ≤ d0.resetTime) :
    baseData wms now (some d0) = d0 := by
  simp only [baseData, Option.getD_some]
  exact if_neg (not_lt.mpr h)

theorem baseData_some_lt (wms now : Int) (d0 : RateLimitData)
    (h : d0.resetTime < now) :
    baseData wms now (some d0) = { count := 0, resetTime := now + wms } := by
  simp only [baseData, Option.getD_some]
  exact if_pos h

/-- Workhorse for within-window call sequences: if the client's entry holds
count `c` with reset time `R`, every listed call time is at most `R`, and `c`
plus the number of calls stays within the maximum, then every call is admitted
and the final entry holds `c + length` with the reset time unchanged. -/
theorem runCalls_within_window (requestIp : Option String) (mx wms : Int)
    (ts : List Int) (m : Registry) (c R : Int)
    (hm : m (clientKey requestIp) = some { count := c, resetTime := R })
    (hts : ∀ t ∈ ts, t ≤ R)
    (hlen : c + ts.length ≤ mx) :
    (runCalls requestIp mx wms ts m).1 = List.replicate ts.length none ∧
    (runCalls requestIp mx wms ts m).2 (clientKey requestIp) =
      some { count := c + ts.length, resetTime := R } := by
  induction ts generalizing m c with
  | nil =>
    refine ⟨rfl, ?_⟩
    simpa [runCalls] using hm
  | cons t ts ih =>
    have ht : t ≤ R := hts t (List.mem_cons_self t ts)
    have hbase : baseData wms t (m (clientKey requestIp)) =
        { count := c, resetTime := R } := by
      rw [hm]
      exact baseData_some_le _ _ _ ht
    have hlen1 : c + ((ts.length : Int) + 1) ≤ mx := by
      have h0 := hlen
      simp only [List.length_cons] at h0
      push_cast at h0
      omega
    have hcnt : ¬ (c + 1 > mx) := by omega
    have hfst : (rateLimitMiddleware requestIp mx wms t m).1 = none := by
      rw [rateLimitMiddleware_fst, hbase]
      exact if_neg hcnt
    have hsnd : (rateLimitMiddleware requestIp mx wms t m).2 (clientKey requestIp) =
        some { count := c + 1, resetTime := R } := by
      rw [rateLimitMiddleware_snd, hbase, Registry.set_same]
    have hih := ih (rateLimitMiddleware requestIp mx wms t m).2 (c + 1) hsnd
      (fun t2 ht2 => hts t2 (List.mem_cons_of_mem t ht2))
      (by omega)
    refine ⟨?_, ?_⟩
    · show (rateLimitMiddleware requestIp mx wms t m).1 ::
        (runCalls requestIp mx wms ts (rateLimitMiddleware requestIp mx wms t m).2).1 =
        List.replicate (t :: ts).length none
      rw [hfst, List.length_cons, List.replicate_succ, hih.1]
    · show (runCalls requestIp mx wms ts (rateLimitMiddleware requestIp mx wms t m).2).2
          (clientKey requestIp) =
        some { count := c + (t :: ts).length, resetTime := R }
      rw [hih.2]
      congr 2
      simp only [List.length_cons]
      push_cast
      omega

/-- C1: starting from a state with no entry for the client (in which case the
window's reset time becomes `t0 + windowMs` at the first call) or with a fresh
entry of count 0 and reset time `R`, a sequence of at most `maxRequests` calls
whose times all lie within the window (at most `R`) is admitted in full: every
call returns `none` (the middleware passes the request through). -/
theorem claim_C1_within_window_all_admitted (requestIp : Option String)
    (mx wms t0 R : Int) (ts : List Int) (m : Registry)
    (hstart : (m (clientKey requestIp) = none ∧ R = t0 + wms) ∨
      m (clientKey requestIp) = some { count := 0, resetTime := R })
    (ht0 : t0 ≤ R)
    (hts : ∀ t ∈ ts, t ≤ R)
    (hlen : ((t0 :: ts).length : Int) ≤ mx) :
    (runCalls requestIp mx wms (t0 :: ts) m).1 =
      List.replicate (t0 :: ts).length none := by
  have hlen2 : (ts.length : Int) + 1 ≤ mx := by
    simp only [List.length_cons] at hlen
    push_cast at hlen
    omega
  rcases hstart with ⟨hnone, hR⟩ | hfresh
  · have hbase : baseData wms t0 (m (clientKey requestIp)) =
        { count := 0, resetTime := R } := by
      rw [hnone, baseData_none, hR]
    have hfst : (rateLimitMiddleware requestIp mx wms t0 m).1 = none := by
      rw [rateLimitMiddleware_fst, hbase]
      exact if_neg (by show ¬ ((0 : Int) + 1 > mx); omega)
    have hsnd : (rateLimitMiddleware requestIp mx wms t0 m).2 (clientKey requestIp) =
        some { count := 0 + 1, resetTime := R } := by
      rw [rateLimitMiddleware_snd, hbase, Registry.set_same]
    have hrest := runCalls_within_window requestIp mx wms ts
      (rateLimitMiddleware requestIp mx wms t0 m).2 (0 + 1) R hsnd hts (by omega)
    show (rateLimitMiddleware requestIp mx wms t0 m).1 ::
        (runCalls requestIp mx wms ts (rateLimitMiddleware requestIp mx wms t0 m).2).1 =
      List.replicate (t0 :: ts).length none
    rw [hfst, List.length_cons, List.replicate_succ, hrest.1]
  · have hall : ∀ t ∈ t0 :: ts, t ≤ R := by
      intro t htm
      rcases List.mem_cons.mp htm with h | h
      · exact h ▸ ht0
      · exact hts t h
    have := runCalls_within_window requestIp mx wms (t0 :: ts) m 0 R hfresh hall
      (by omega)
    exact this.1

/-- C2: if the stored count for the client already equals `maxRequests` and the
call arrives within the window (`now ≤ resetTime`), the call is rejected with
the 429 response built from the entry's reset time. -/
theorem claim_C2_next_call_rejected (requestIp : Option String)
    (mx wms now R : Int) (m : Registry)
    (hm : m (clientKey requestIp) = some { count := mx, resetTime := R })
    (hnow : now ≤ R) :
    (rateLimitMiddleware requestIp mx wms now m).1 =
      some (rejectionResponse mx R now) ∧
    (rejectionResponse mx R now).status = 429 := by
  have hbase : baseData wms now (m (clientKey requestIp)) =
      { count := mx, resetTime := R } := by
    rw [hm]
    exact baseData_some_le _ _ _ hnow
  refine ⟨?_, rfl⟩
  rw [rateLimitMiddleware_fst, hbase]
  exact if_pos (by show mx + 1 > mx; omega)

/-- C3: a call arriving strictly after the entry's reset time first resets the
window (count back to 0, reset time `now + windowMs`), so after the increment
the entry holds count 1, and with `maxRequests ≥ 1` the call is admitted, no
matter how large the prior count was. -/
theorem claim_C3_reset_after_window (requestIp : Option String)
    (mx wms now c R : Int) (m : Registry)
    (hm : m (clientKey requestIp) = some { count := c, resetTime := R })
    (hre : R < now) (hmx : 1 ≤ mx) :
    (rateLimitMiddleware requestIp mx wms now m).1 = none ∧
    (rateLimitMiddleware requestIp mx wms now m).2 (clientKey requestIp) =
      some { count := 1, resetTime := now + wms } := by
  have hbase : baseData wms now (m (clientKey requestIp)) =
      { count := 0, resetTime := now + wms } := by
    rw [hm]
    exact baseData_some_lt _ _ _ hre
  refine ⟨?_, ?_⟩
  · rw [rateLimitMiddleware_fst, hbase]
    exact if_neg (by show ¬ ((0 : Int) + 1 > mx); omega)
  · rw [rateLimitMiddleware_snd, hbase, Registry.set_same]
    norm_num

/-- C4: the reset comparison is strict, so a call arriving exactly at the
entry's reset time does not get a fresh window: the old count is incremented
with the reset time unchanged, and the call is admitted iff that incremented
count stays within the maximum. -/
theorem claim_C4_boundary_not_reset (requestIp : Option String)
    (mx wms c R : Int) (m : Registry)
    (hm : m (clientKey requestIp) = some { count := c, resetTime := R }) :
    (rateLimitMiddleware requestIp mx wms R m).2 (clientKey requestIp) =
      some { count := c + 1, resetTime := R } ∧
    ((rateLimitMiddleware requestIp mx wms R m).1 = none ↔ c + 1 ≤ mx) := by
  have hbase : baseData wms R (m (clientKey requestIp)) =
      { count := c, resetTime := R } := by
    rw [hm]
    exact baseData_some_le _ _ _ le_rfl
  refine ⟨?_, ?_⟩
  · rw [rateLimitMiddleware_snd, hbase, Registry.set_same]
  · rw [rateLimitMiddleware_fst, hbase]
    constructor
    · intro h
      by_contra hc
      rw [if_pos (by show c + 1 > mx; omega)] at h
      exact Option.some_ne_none _ h
    · intro h
      exact if_neg (by show ¬ (c + 1 > mx); omega)

/-- Overwriting the same key twice keeps only the second write. -/
theorem Registry.set_set (m : Registry) (k : String) (v1 v2 : RateLimitData) :
    (m.set k v1).set k v2 = m.set k v2 := by
  funext k2
  by_cases h : k2 = k <;> simp [Registry.set, h]

/-- A freshly synthesized entry is not reset again by the same call. -/
theorem baseData_some_fresh (wms now : Int) :
    baseData wms now (some { count := 0, resetTime := now + wms }) =
      { count := 0, resetTime := now + wms } := by
  simp [baseData]

/-- The base entry's count is nonnegative whenever the prior entry's is. -/
theorem baseData_count_nonneg (wms now : Int) (p : Option RateLimitData)
    (hp : ∀ d0, p = some d0 → 0 ≤ d0.count) :
    0 ≤ (baseData wms now p).count := by
  cases p with
  | none =>
    rw [baseData_none]
  | some d0 =>
    by_cases h : d0.resetTime < now
    · rw [baseData_some_lt _ _ _ h]
    · rw [baseData_some_le _ _ _ (not_lt.mp h)]
      exact hp d0 rfl

/-- With a nonnegative window, the base entry's reset time is never in the
past: a kept entry survived the strict reset test, and a synthesized or reset
entry gets `now + windowMs`. -/
theorem baseData_resetTime_ge (wms now : Int) (p : Option RateLimitData)
    (hw : 0 ≤ wms) : now ≤ (baseData wms now p).resetTime := by
  cases p with
  | none =>
    rw [baseData_none]
    show now ≤ now + wms
    omega
  | some d0 =>
    by_cases h : d0.resetTime < now
    · rw [baseData_some_lt _ _ _ h]
      show now ≤ now + wms
      omega
    · rw [baseData_some_le _ _ _ (not_lt.mp h)]
      exact not_lt.mp h

/-- Every rejection response is the `rejectionResponse` built from the reset
time of the entry the call wrote back. -/
theorem rejected_response_shape (requestIp : Option String) (mx wms now : Int)
    (m : Registry) (resp : RateLimitResponse)
    (hresp : (rateLimitMiddleware requestIp mx wms now m).1 = some resp) :
    (rateLimitMiddleware requestIp mx wms now m).2 (clientKey requestIp) =
      some { count := (baseData wms now (m (clientKey requestIp))).count + 1
             resetTime := (baseData wms now (m (clientKey requestIp))).resetTime } ∧
    resp = rejectionResponse mx
      (baseData wms now (m (clientKey requestIp))).resetTime now := by
  refine ⟨by rw [rateLimitMiddleware_snd, Registry.set_same], ?_⟩
  rw [rateLimitMiddleware_fst] at hresp
  split at hresp
  · exact (Option.some.inj hresp).symm
  · exact absurd hresp (by simp)

/-- C5: on every rejection (with a positive window) the `Retry-After` header
equals `ceil((resetTime - now) / 1000)` computed from the post-update entry's
reset time, and that value is nonnegative. -/
theorem claim_C5_retry_after_value (requestIp : Option String) (mx wms now : Int)
    (m : Registry) (resp : RateLimitResponse)
    (hw : 0 < wms)
    (hresp : (rateLimitMiddleware requestIp mx wms now m).1 = some resp) :
    ∃ d : RateLimitData,
      (rateLimitMiddleware requestIp mx wms now m).2 (clientKey requestIp) =
        some d ∧
      resp.headers.retryAfter = toString (ceilDiv (d.resetTime - now) 1000) ∧
      0 ≤ ceilDiv (d.resetTime - now) 1000 := by
  obtain ⟨hd, hshape⟩ := rejected_response_shape requestIp mx wms now m resp hresp
  have hge := baseData_resetTime_ge wms now (m (clientKey requestIp)) (le_of_lt hw)
  refine ⟨_, hd, ?_, ?_⟩
  · rw [hshape]
    rfl
  · exact ceilDiv_nonneg
      (by show 0 ≤ (baseData wms now (m (clientKey requestIp))).resetTime - now; omega)
      (by norm_num)

/-- C6: every rejection is an HTTP 429 response whose headers are exactly the
four rate-limit headers (limit, remaining `"0"`, reset epoch-seconds,
retry-after seconds) and whose JSON body is the `success: false` object with
the "Too many requests" message, all computed from the post-update entry. -/
theorem claim_C6_rejection_response_shape (requestIp : Option String)
    (mx wms now : Int) (m : Registry) (resp : RateLimitResponse)
    (hresp : (rateLimitMiddleware requestIp mx wms now m).1 = some resp) :
    ∃ d : RateLimitData,
      (rateLimitMiddleware requestIp mx wms now m).2 (clientKey requestIp) =
        some d ∧
      resp.status = 429 ∧
      resp.headers =
        { limit := toString mx
          remaining := "0"
          reset := toString (ceilDiv d.resetTime 1000)
          retryAfter := toString (ceilDiv (d.resetTime - now) 1000) } ∧
      resp.body =
        { success := false
          message := "Too many requests. Please try again in " ++
            toString (ceilDiv (d.resetTime - now) 1000) ++ " seconds." } := by
  obtain ⟨hd, hshape⟩ := rejected_response_shape requestIp mx wms now m resp hresp
  refine ⟨_, hd, ?_, ?_, ?_⟩ <;> rw [hshape] <;> rfl

/-- C7: a call only touches its own key: any other key's entry is left exactly
as it was, and both the decision and the written entry depend only on the
client's own entry in the store. -/
theorem claim_C7_key_isolation (requestIp : Option String) (mx wms now : Int)
    (m m2 : Registry) (other : String)
    (hother : other ≠ clientKey requestIp)
    (hagree : m2 (clientKey requestIp) = m (clientKey requestIp)) :
    (rateLimitMiddleware requestIp mx wms now m).2 other = m other ∧
    (rateLimitMiddleware requestIp mx wms now m2).1 =
      (rateLimitMiddleware requestIp mx wms now m).1 ∧
    (rateLimitMiddleware requestIp mx wms now m2).2 (clientKey requestIp) =
      (rateLimitMiddleware requestIp mx wms now m).2 (clientKey requestIp) := by
  refine ⟨?_, ?_, ?_⟩
  · rw [rateLimitMiddleware_snd]
    exact Registry.set_other _ _ _ _ hother
  · rw [rateLimitMiddleware_fst, rateLimitMiddleware_fst, hagree]
  · rw [rateLimitMiddleware_snd, rateLimitMiddleware_snd, Registry.set_same,
      Registry.set_same, hagree]

/-- C8: the data-model invariants are preserved: counts stay nonnegative; a
client with no entry is treated exactly as one with `count = 0, resetTime =
now + windowMs`; and the written entry's reset time is `now + windowMs` when
the window was (re)started by this call, or the unexpired prior reset time
otherwise. -/
theorem claim_C8_entry_invariants (requestIp : Option String) (mx wms now : Int)
    (m : Registry)
    (hcounts : ∀ k d, m k = some d → 0 ≤ d.count) :
    (∀ k d, (rateLimitMiddleware requestIp mx wms now m).2 k = some d →
      0 ≤ d.count) ∧
    (m (clientKey requestIp) = none →
      rateLimitMiddleware requestIp mx wms now m =
        rateLimitMiddleware requestIp mx wms now
          (m.set (clientKey requestIp) { count := 0, resetTime := now + wms })) ∧
    (∀ d, (rateLimitMiddleware requestIp mx wms now m).2 (clientKey requestIp) =
        some d →
      d.resetTime = now + wms ∨
      ∃ d0, m (clientKey requestIp) = some d0 ∧ now ≤ d0.resetTime ∧
        d.resetTime = d0.resetTime) := by
  refine ⟨?_, ?_, ?_⟩
  · intro k d hk
    rw [rateLimitMiddleware_snd] at hk
    by_cases h : k = clientKey requestIp
    · subst h
      rw [Registry.set_same] at hk
      obtain rfl := Option.some.inj hk
      have := baseData_count_nonneg wms now (m (clientKey requestIp))
        (fun d0 h0 => hcounts (clientKey requestIp) d0 h0)
      show 0 ≤ (baseData wms now (m (clientKey requestIp))).count + 1
      omega
    · rw [Registry.set_other _ _ _ _ h] at hk
      exact hcounts k d hk
  · intro hnone
    rw [rateLimitMiddleware_eq, rateLimitMiddleware_eq, hnone, baseData_none,
      Registry.set_same, baseData_some_fresh, Registry.set_set]
  · intro d hd
    rw [rateLimitMiddleware_snd, Registry.set_same] at hd
    obtain rfl := Option.some.inj hd
    show (baseData wms now (m (clientKey requestIp))).resetTime = now + wms ∨ _
    cases hm : m (clientKey requestIp) with
    | none =>
      rw [baseData_none]
      exact Or.inl rfl
    | some d0 =>
      by_cases h : d0.resetTime < now
      · rw [baseData_some_lt _ _ _ h]
        exact Or.inl rfl
      · rw [baseData_some_le _ _ _ (not_lt.mp h)]
        exact Or.inr ⟨d0, rfl, not_lt.mp h, rfl⟩

/-- C9: the limiter is total — every call returns either an admission
(`none`) or a rejection response — and a request without a determinable
client identifier falls back to the sentinel key `"unknown"`, so such calls
share one counter: a call with no identifier behaves identically to a call
whose identifier is the string `"unknown"`. -/
theorem claim_C9_total_and_sentinel (requestIp : Option String)
    (mx wms now : Int) (m : Registry) :
    ((rateLimitMiddleware requestIp mx wms now m).1 = none ∨
      ∃ resp, (rateLimitMiddleware requestIp mx wms now m).1 = some resp) ∧
    clientKey none = "unknown" ∧
    clientKey (some "") = "unknown" ∧
    rateLimitMiddleware none mx wms now m =
      rateLimitMiddleware (some "unknown") mx wms now m := by
  refine ⟨?_, rfl, rfl, rfl⟩
  cases h : (rateLimitMiddleware requestIp mx wms now m).1 with
  | none => exact Or.inl rfl
  | some r => exact Or.inr ⟨r, rfl⟩

/-- C10: after every call (admitted or rejected) the store holds an entry for
the client with count at least 1 and, for a positive window, a reset time not
in the past; a call within the window — rejected or not — writes back the old
count plus one with the reset time unchanged; and no call ever removes a key. -/
theorem claim_C10_write_through (requestIp : Option String) (mx wms now : Int)
    (m : Registry)
    (hcount : ∀ d0, m (clientKey requestIp) = some d0 → 0 ≤ d0.count)
    (hw : 0 < wms) :
    ∃ d : RateLimitData,
      (rateLimitMiddleware requestIp mx wms now m).2 (clientKey requestIp) =
        some d ∧
      1 ≤ d.count ∧ now ≤ d.resetTime ∧
      (∀ d0, m (clientKey requestIp) = some d0 → now ≤ d0.resetTime →
        d = { count := d0.count + 1, resetTime := d0.resetTime }) ∧
      (∀ k, m k ≠ none →
        (rateLimitMiddleware requestIp mx wms now m).2 k ≠ none) := by
  refine ⟨_, by rw [rateLimitMiddleware_snd, Registry.set_same], ?_, ?_, ?_, ?_⟩
  · have := baseData_count_nonneg wms now (m (clientKey requestIp)) hcount
    show 1 ≤ (baseData wms now (m (clientKey requestIp))).count + 1
    omega
  · exact baseData_resetTime_ge wms now (m (clientKey requestIp)) (le_of_lt hw)
  · intro d0 h0 hle
    rw [h0, baseData_some_le _ _ _ hle]
  · intro k hk
    rw [rateLimitMiddleware_snd]
    by_cases h : k = clientKey requestIp
    · subst h
      rw [Registry.set_same]
      exact Option.some_ne_none _
    · rw [Registry.set_other _ _ _ _ h]
      exact hk

/-! ### Concrete witnesses

The spec's concrete scenario: `maxRequests = 5`, `windowMs = 60000`, client
`"1.2.3.4"`, five calls at `now = 1000`, a sixth at `now = 1500`, and a later
call at `now = 61500` after the reset time `61000` has passed. -/

theorem claim_C1_witness :
    (runCalls (some "1.2.3.4") 5 60000 [1000, 1000, 1000, 1000, 1000]
        Registry.empty).1 =
      List.replicate 5 none := by
  exact claim_C1_within_window_all_admitted (some "1.2.3.4") 5 60000 1000 61000
    [1000, 1000, 1000, 1000] Registry.empty (Or.inl ⟨rfl, rfl⟩)
    (by norm_num) (by decide) (by norm_num)

theorem claim_C2_witness :
    (rateLimitMiddleware (some "1.2.3.4") 5 60000 1500
        (Registry.empty.set "1.2.3.4" { count := 5, resetTime := 61000 })).1 =
      some (rejectionResponse 5 61000 1500) ∧
    (rejectionResponse 5 61000 1500).status = 429 := by
  exact claim_C2_next_call_rejected (some "1.2.3.4") 5 60000 1500 61000
    (Registry.empty.set "1.2.3.4" { count := 5, resetTime := 61000 })
    (by decide) (by norm_num)

theorem claim_C3_witness :
    (rateLimitMiddleware (some "1.2.3.4") 5 60000 61500
        (Registry.empty.set "1.2.3.4" { count := 999, resetTime := 61000 })).1 =
      none ∧
    (rateLimitMiddleware (some "1.2.3.4") 5 60000 61500
        (Registry.empty.set "1.2.3.4" { count := 999, resetTime := 61000 })).2
      (clientKey (some "1.2.3.4")) = some { count := 1, resetTime := 121500 } := by
  exact claim_C3_reset_after_window (some "1.2.3.4") 5 60000 61500 999 61000
    (Registry.empty.set "1.2.3.4" { count := 999, resetTime := 61000 })
    (by decide) (by norm_num) (by norm_num)

theorem claim_C4_witness :
    (rateLimitMiddleware (some "1.2.3.4") 5 60000 61000
        (Registry.empty.set "1.2.3.4" { count := 4, resetTime := 61000 })).2
      (clientKey (some "1.2.3.4")) = some { count := 5, resetTime := 61000 } ∧
    ((rateLimitMiddleware (some "1.2.3.4") 5 60000 61000
        (Registry.empty.set "1.2.3.4" { count := 4, resetTime := 61000 })).1 =
      none ↔ (4 : Int) + 1 ≤ 5) := by
  exact claim_C4_boundary_not_reset (some "1.2.3.4") 5 60000 4 61000
    (Registry.empty.set "1.2.3.4" { count := 4, resetTime := 61000 }) (by decide)

theorem claim_C5_witness :
    ∃ d : RateLimitData,
      (rateLimitMiddleware (some "1.2.3.4") 5 60000 1500
          (Registry.empty.set "1.2.3.4" { count := 5, resetTime := 61000 })).2
        (clientKey (some "1.2.3.4")) = some d ∧
      (rejectionResponse 5 61000 1500).headers.retryAfter =
        toString (ceilDiv (d.resetTime - 1500) 1000) ∧
      0 ≤ ceilDiv (d.resetTime - 1500) 1000 := by
  exact claim_C5_retry_after_value (some "1.2.3.4") 5 60000 1500
    (Registry.empty.set "1.2.3.4" { count := 5, resetTime := 61000 })
    (rejectionResponse 5 61000 1500) (by norm_num) (by decide)

theorem claim_C6_witness :
    ∃ d : RateLimitData,
      (rateLimitMiddleware (some "1.2.3.4") 5 60000 1500
          (Registry.empty.set "1.2.3.4" { count := 5, resetTime := 61000 })).2
        (clientKey (some "1.2.3.4")) = some d ∧
      (rejectionResponse 5 61000 1500).status = 429 ∧
      (rejectionResponse 5 61000 1500).headers =
        { limit := toString (5 : Int)
          remaining := "0"
          reset := toString (ceilDiv d.resetTime 1000)
          retryAfter := toString (ceilDiv (d.resetTime - 1500) 1000) } ∧
      (rejectionResponse 5 61000 1500).body =
        { success := false
          message := "Too many requests. Please try again in " ++
            toString (ceilDiv (d.resetTime - 1500) 1000) ++ " seconds." } := by
  exact claim_C6_rejection_response_shape (some "1.2.3.4") 5 60000 1500
    (Registry.empty.set "1.2.3.4" { count := 5, resetTime := 61000 })
    (rejectionResponse 5 61000 1500) (by decide)

theorem claim_C7_witness :
    (rateLimitMiddleware (some "1.2.3.4") 5 60000 1000 Registry.empty).2
      "5.6.7.8" = Registry.empty "5.6.7.8" ∧
    (rateLimitMiddleware (some "1.2.3.4") 5 60000 1000
        (Registry.empty.set "9.9.9.9" { count := 3, resetTime := 500 })).1 =
      (rateLimitMiddleware (some "1.2.3.4") 5 60000 1000 Registry.empty).1 ∧
    (rateLimitMiddleware (some "1.2.3.4") 5 60000 1000
        (Registry.empty.set "9.9.9.9" { count := 3, resetTime := 500 })).2
      (clientKey (some "1.2.3.4")) =
      (rateLimitMiddleware (some "1.2.3.4") 5 60000 1000 Registry.empty).2
        (clientKey (some "1.2.3.4")) := by
  exact claim_C7_key_isolation (some "1.2.3.4") 5 60000 1000 Registry.empty
    (Registry.empty.set "9.9.9.9" { count := 3, resetTime := 500 })
    "5.6.7.8" (by decide) (by decide)

theorem claim_C8_witness :
    (∀ k d, (rateLimitMiddleware (some "1.2.3.4") 5 60000 1000 Registry.empty).2
        k = some d → 0 ≤ d.count) ∧
    (Registry.empty (clientKey (some "1.2.3.4")) = none →
      rateLimitMiddleware (some "1.2.3.4") 5 60000 1000 Registry.empty =
        rateLimitMiddleware (some "1.2.3.4") 5 60000 1000
          (Registry.empty.set (clientKey (some "1.2.3.4"))
            { count := 0, resetTime := 1000 + 60000 })) ∧
    (∀ d, (rateLimitMiddleware (some "1.2.3.4") 5 60000 1000 Registry.empty).2
        (clientKey (some "1.2.3.4")) = some d →
      d.resetTime = 1000 + 60000 ∨
      ∃ d0, Registry.empty (clientKey (some "1.2.3.4")) = some d0 ∧
        (1000 : Int) ≤ d0.resetTime ∧ d.resetTime = d0.resetTime) := by
  exact claim_C8_entry_invariants (some "1.2.3.4") 5 60000 1000 Registry.empty
    (by intro k d h; simp [Registry.empty] at h)

theorem claim_C10_witness :
    ∃ d : RateLimitData,
      (rateLimitMiddleware (some "1.2.3.4") 5 60000 1000 Registry.empty).2
        (clientKey (some "1.2.3.4")) = some d ∧
      1 ≤ d.count ∧ (1000 : Int) ≤ d.resetTime ∧
      (∀ d0, Registry.empty (clientKey (some "1.2.3.4")) = some d0 →
        (1000 : Int) ≤ d0.resetTime →
        d = { count := d0.count + 1, resetTime := d0.resetTime }) ∧
      (∀ k, Registry.empty k ≠ none →
        (rateLimitMiddleware (some "1.2.3.4") 5 60000 1000 Registry.empty).2
          k ≠ none) := by
  exact claim_C10_write_through (some "1.2.3.4") 5 60000 1000 Registry.empty
    (by intro d0 h; simp [Registry.empty] at h) (by norm_num)

end RateLimit
